import Mathlib

/-!
Verification development for the streaming univariate statistics estimator
family and its binding layer (src/rust_src/lib.rs).  The binding layer is
embedded from the source; the estimator algorithms live in the
`online_statistics` crate, which is not under src/, so they are modelled
from the specification (spec.md §4).  Observations and estimates are
embedded as rational numbers, which carry the exact field arithmetic the
algorithms perform on finite doubles.
-/

/-- Construction-time validation failure: a single error kind carrying the
offending field and the violated constraint (spec §7). -/
structure InvalidParameter where
  field : String
  constraint : String
deriving Repr, DecidableEq

/-- Constraint from the spec (§3, §4.2): smoothing constants must lie in the
half-open interval (0, 1]. -/
def alphaValid (a : ℚ) : Prop := 0 < a ∧ a ≤ 1

instance (a : ℚ) : Decidable (alphaValid a) := by unfold alphaValid; infer_instance

/-- Modelled from the spec: PeakToPeak (§4.1), running min/max range.  The
crate implementation `online_statistics::ptp::PeakToPeak` is not under src/.
State: `min`, `max`, initially unset. -/
structure PeakToPeak where
  min : Option ℚ
  max : Option ℚ
deriving Repr, DecidableEq

namespace PeakToPeak

/-- No-argument constructor: both trackers start unset. -/
def new : PeakToPeak := ⟨none, none⟩

/-- On the first observation set `min = max = x`; thereafter extend both
trackers (spec §4.1). -/
def update (s : PeakToPeak) (x : ℚ) : PeakToPeak :=
  match s.min, s.max with
  | some a, some b => ⟨some (Min.min a x), some (Max.max b x)⟩
  | _, _ => ⟨some x, some x⟩

/-- Returns `max - min`, or the sentinel 0 before any observation. -/
def get (s : PeakToPeak) : ℚ :=
  match s.min, s.max with
  | some a, some b => b - a
  | _, _ => 0

/-- Feed a finite sequence of observations, oldest first. -/
def runUpdates (s : PeakToPeak) (xs : List ℚ) : PeakToPeak := xs.foldl update s

end PeakToPeak

/-- Modelled from the spec: ExponentialMean (§4.2).  The crate implementation
`online_statistics::ewmean::EWMean` is not under src/.  State: optional
`mean` (unset before the first observation) and the smoothing constant.
Its constructor is total: src calls `EWMean::new(alpha)` with no error
path, so no validation result can reach the caller. -/
structure EWMean where
  mean : Option ℚ
  alpha : ℚ
deriving Repr, DecidableEq

namespace EWMean

def new (alpha : ℚ) : EWMean := ⟨none, alpha⟩

/-- First observation sets the mean; afterwards
`mean = alpha * x + (1 - alpha) * mean` (spec §4.2). -/
def update (s : EWMean) (x : ℚ) : EWMean :=
  match s.mean with
  | none => ⟨some x, s.alpha⟩
  | some m => ⟨some (s.alpha * x + (1 - s.alpha) * m), s.alpha⟩

/-- Current mean, or the sentinel 0 while unset. -/
def get (s : EWMean) : ℚ := s.mean.getD 0

def runUpdates (s : EWMean) (xs : List ℚ) : EWMean := xs.foldl update s

theorem ewmean_alpha_update (s : EWMean) (x : ℚ) : (s.update x).alpha = s.alpha := by
  unfold update; cases s.mean <;> rfl

theorem ewmean_alpha_runUpdates (s : EWMean) (xs : List ℚ) :
    (s.runUpdates xs).alpha = s.alpha := by
  induction xs generalizing s with
  | nil => rfl
  | cons y ys ih => exact (ih (s.update y)).trans (ewmean_alpha_update s y)

theorem ewmean_get_update_alpha_one (s : EWMean) (x : ℚ) (h : s.alpha = 1) :
    (s.update x).get = x := by
  unfold update get
  cases s.mean with
  | none => rfl
  | some m => simp [h]

end EWMean

/-- Modelled from the spec: ExponentialVariance (§4.3).  The crate
implementation `online_statistics::ewvariance::EWVariance` is not under
src/.  State: optional `mean`, `variance`, smoothing constant.  As for
EWMean, the constructor is total: src calls `EWVariance::new(alpha)` with
no error path. -/
structure EWVariance where
  mean : Option ℚ
  variance : ℚ
  alpha : ℚ
deriving Repr, DecidableEq

namespace EWVariance

def new (alpha : ℚ) : EWVariance := ⟨none, 0, alpha⟩

/-- If unset, `mean = x`, `variance = 0`; else `diff = x - mean`,
`incr = alpha * diff`, `mean += incr`,
`variance = (1 - alpha) * (variance + diff * incr)` (spec §4.3). -/
def update (s : EWVariance) (x : ℚ) : EWVariance :=
  match s.mean with
  | none => ⟨some x, 0, s.alpha⟩
  | some m =>
    let diff := x - m
    let incr := s.alpha * diff
    ⟨some (m + incr), (1 - s.alpha) * (s.variance + diff * incr), s.alpha⟩

def get (s : EWVariance) : ℚ := s.variance

def runUpdates (s : EWVariance) (xs : List ℚ) : EWVariance := xs.foldl update s

theorem ewvar_alpha_update (s : EWVariance) (x : ℚ) : (s.update x).alpha = s.alpha := by
  unfold update; cases s.mean <;> rfl

theorem ewvar_alpha_runUpdates (s : EWVariance) (xs : List ℚ) :
    (s.runUpdates xs).alpha = s.alpha := by
  induction xs generalizing s with
  | nil => rfl
  | cons y ys ih => exact (ih (s.update y)).trans (ewvar_alpha_update s y)

theorem ewvar_get_update_alpha_one (s : EWVariance) (x : ℚ) (h : s.alpha = 1) :
    (s.update x).get = 0 := by
  unfold update get
  cases s.mean with
  | none => rfl
  | some m => simp [h]

end EWVariance

/-- Binding wrapper `PyEWMean` from src/rust_src/lib.rs: owns an `EWMean`;
`new` returns the wrapper directly, with no failure path. -/
structure PyEWMean where
  ewmean : EWMean

namespace PyEWMean

def new (alpha : ℚ) : PyEWMean := ⟨EWMean.new alpha⟩

def update (s : PyEWMean) (x : ℚ) : PyEWMean := ⟨s.ewmean.update x⟩

def get (s : PyEWMean) : ℚ := s.ewmean.get

end PyEWMean

/-- Binding wrapper `PyEWVar` from src/rust_src/lib.rs: owns an
`EWVariance`; `new` returns the wrapper directly, with no failure path. -/
structure PyEWVar where
  ewvar : EWVariance

namespace PyEWVar

def new (alpha : ℚ) : PyEWVar := ⟨EWVariance.new alpha⟩

def update (s : PyEWVar) (x : ℚ) : PyEWVar := ⟨s.ewvar.update x⟩

def get (s : PyEWVar) : ℚ := s.ewvar.get

end PyEWVar

/-- Binding wrapper `PyPeakToPeak` from src/rust_src/lib.rs: owns a
`PeakToPeak`; `new` takes no parameter and cannot fail. -/
structure PyPeakToPeak where
  ptp : PeakToPeak

namespace PyPeakToPeak

def new : PyPeakToPeak := ⟨PeakToPeak.new⟩

def update (s : PyPeakToPeak) (x : ℚ) : PyPeakToPeak := ⟨s.ptp.update x⟩

def get (s : PyPeakToPeak) : ℚ := s.ptp.get

end PyPeakToPeak

theorem PeakToPeak.runUpdates_set (a b : ℚ) (xs : List ℚ) :
    PeakToPeak.runUpdates ⟨some a, some b⟩ xs =
      ⟨some (xs.foldl Min.min a), some (xs.foldl Max.max b)⟩ := by
  induction xs generalizing a b with
  | nil => rfl
  | cons y ys ih => exact ih (Min.min a y) (Max.max b y)

/-- C2: for every finite observation sequence fed to PeakToPeak, `get()`
afterwards equals the maximum of the sequence minus its minimum; for the
empty sequence and for any single-element sequence, `get()` equals 0. -/
theorem ptp_get_eq_max_sub_min :
    (PeakToPeak.new.runUpdates []).get = 0 ∧
    (∀ x : ℚ, (PeakToPeak.new.runUpdates [x]).get = 0) ∧
    (∀ (x : ℚ) (xs : List ℚ),
      (PeakToPeak.new.runUpdates (x :: xs)).get =
        xs.foldl Max.max x - xs.foldl Min.min x) := by
  refine ⟨rfl, ?_, ?_⟩
  · intro x
    show (PeakToPeak.get ⟨some x, some x⟩) = 0
    simp [PeakToPeak.get]
  · intro x xs
    show (PeakToPeak.runUpdates ⟨some x, some x⟩ xs).get = _
    rw [PeakToPeak.runUpdates_set]
    rfl

/-- C3: an EWMean with `alpha = 1` returns exactly the last observation from
`get()` after every `update(x)`, regardless of prior updates. -/
theorem ewmean_alpha_one_tracks_last (xs : List ℚ) (x : ℚ) :
    (((EWMean.new 1).runUpdates xs).update x).get = x :=
  EWMean.ewmean_get_update_alpha_one _ x (EWMean.ewmean_alpha_runUpdates (EWMean.new 1) xs)

/-- C4: an EWVariance with `alpha = 1` returns 0 from `get()` after every
update, for every finite input sequence. -/
theorem ewvar_alpha_one_zero (xs : List ℚ) (x : ℚ) :
    (((EWVariance.new 1).runUpdates xs).update x).get = 0 :=
  EWVariance.ewvar_get_update_alpha_one _ x (EWVariance.ewvar_alpha_runUpdates (EWVariance.new 1) xs)

/-- C5: contrary to the claim, EWMean/EWVariance construction is not
validated: the binding constructors have no error path (src calls
`EWMean::new` / `EWVariance::new` directly and returns the wrapper), so
construction at the invalid smoothing constant `alpha = 0` succeeds and
yields estimators carrying `alpha = 0`, although 0 violates the spec
constraint `alpha ∈ (0, 1]`. -/
theorem ew_construction_accepts_invalid_alpha :
    (PyEWMean.new 0).ewmean = EWMean.new 0 ∧
    (PyEWVar.new 0).ewvar = EWVariance.new 0 ∧
    ¬ alphaValid 0 :=
  ⟨rfl, rfl, by decide⟩

/-- Modelled from the spec: RollingQuantile (§4.7), the exact quantile over
the last `window` observations under the nearest-rank rule.  The crate
implementation `online_statistics::quantile::RollingQuantile` is not under
src/.  State: a FIFO `buffer` of the last raw values (newest at the tail)
plus an order-statistic index `sorted` maintained as a sorted list. -/
structure RollingQuantile where
  q : ℚ
  window : ℕ
  buffer : List ℚ
  sorted : List ℚ
deriving Repr, DecidableEq

namespace RollingQuantile

/-- Freshly constructed state: both the FIFO and the order index are empty. -/
def init (q : ℚ) (window : ℕ) : RollingQuantile := ⟨q, window, [], []⟩

/-- Construction validates `q ∈ (0,1)` and `window ≥ 1` (spec §4.7). -/
def new (q : ℚ) (window : ℕ) : Except InvalidParameter RollingQuantile :=
  if 0 < q ∧ q < 1 ∧ 1 ≤ window then Except.ok (init q window)
  else Except.error ⟨"q, window_size", "q must lie in (0,1) and window_size must be at least 1"⟩

/-- If the buffer is full, evict the oldest value from both the FIFO and the
order index, then insert the new value into both (spec §4.7).  The inner
empty-buffer arm is reachable only for `window = 0`, which valid
construction excludes; it inserts without evicting, keeping `update`
total. -/
def update (s : RollingQuantile) (x : ℚ) : RollingQuantile :=
  if s.buffer.length = s.window then
    match s.buffer with
    | [] => { s with buffer := [x], sorted := List.orderedInsert (· ≤ ·) x s.sorted }
    | old :: rest =>
      { s with buffer := rest ++ [x], sorted := List.orderedInsert (· ≤ ·) x (s.sorted.erase old) }
  else
    { s with buffer := s.buffer ++ [x], sorted := List.orderedInsert (· ≤ ·) x s.sorted }

/-- Nearest-rank index into the order index: the value at rank `⌈q · n⌉`
(1-based) among the `n` currently held values. -/
def rankIndex (q : ℚ) (n : ℕ) : ℕ := (⌈q * n⌉ - 1).toNat

/-- Returns the value at the nearest-rank position among the currently held
values; an empty buffer yields the sentinel 0 (spec §4.7). -/
def get (s : RollingQuantile) : ℚ :=
  if s.buffer.length = 0 then 0
  else s.sorted.getD (rankIndex s.q s.buffer.length) 0

/-- Checked variant of `get`: the rank lookup into the order index is an
explicit option, `none` marking an out-of-bounds access; the empty-buffer
branch is the defined sentinel `some 0`. -/
def getCk (s : RollingQuantile) : Option ℚ :=
  if s.buffer.length = 0 then some 0
  else s.sorted[rankIndex s.q s.buffer.length]?

def runUpdates (s : RollingQuantile) (xs : List ℚ) : RollingQuantile := xs.foldl update s

/-- Structural invariant: the order index holds exactly the buffered values. -/
def Inv (s : RollingQuantile) : Prop := s.sorted.Perm s.buffer

theorem inv_update (s : RollingQuantile) (x : ℚ) (h : Inv s) : Inv (s.update x) := by
  obtain ⟨q, w, buf, srt⟩ := s
  unfold Inv at h ⊢
  unfold update
  dsimp only at h ⊢
  by_cases hf : buf.length = w
  · rw [if_pos hf]
    cases buf with
    | nil =>
      exact (List.perm_orderedInsert _ x srt).trans (h.cons x)
    | cons old rest =>
      have h1 : (srt.erase old).Perm rest := by
        have h2 := h.erase old
        rwa [List.erase_cons_head] at h2
      exact (List.perm_orderedInsert _ x _).trans
        ((h1.cons x).trans (List.perm_append_singleton x rest).symm)
  · rw [if_neg hf]
    exact (List.perm_orderedInsert _ x srt).trans
      ((h.cons x).trans (List.perm_append_singleton x buf).symm)

theorem inv_runUpdates (s : RollingQuantile) (xs : List ℚ) (h : Inv s) :
    Inv (s.runUpdates xs) := by
  induction xs generalizing s with
  | nil => exact h
  | cons y ys ih => exact ih (s.update y) (inv_update s y h)

theorem q_update (s : RollingQuantile) (x : ℚ) : (s.update x).q = s.q := by
  obtain ⟨q, w, buf, srt⟩ := s
  unfold update
  dsimp only
  by_cases hf : buf.length = w
  · rw [if_pos hf]; cases buf <;> rfl
  · rw [if_neg hf]

theorem q_runUpdates (s : RollingQuantile) (xs : List ℚ) :
    (s.runUpdates xs).q = s.q := by
  induction xs generalizing s with
  | nil => rfl
  | cons y ys ih => exact (ih (s.update y)).trans (q_update s y)

theorem rankIndex_lt (q : ℚ) (n : ℕ) (h0 : 0 < q) (h1 : q < 1) (hn : 0 < n) :
    rankIndex q n < n := by
  unfold rankIndex
  have hnq : (0 : ℚ) < n := by exact_mod_cast hn
  have hc1 : 0 < ⌈q * (n : ℚ)⌉ := by
    rw [Int.lt_ceil]
    push_cast
    exact mul_pos h0 hnq
  have hc2 : ⌈q * (n : ℚ)⌉ ≤ (n : ℤ) := by
    rw [Int.ceil_le]
    push_cast
    nlinarith
  omega

end RollingQuantile

/-- Binding wrapper `PyRollingQuantile` from src/rust_src/lib.rs: its
constructor calls `RollingQuantile::new(q, window_size).unwrap()`, so an
invalid parameter aborts instead of reaching the caller; `none` marks that
abort. -/
structure PyRollingQuantile where
  stat : RollingQuantile

namespace PyRollingQuantile

def new (q : ℚ) (window_size : ℕ) : Option PyRollingQuantile :=
  match RollingQuantile.new q window_size with
  | Except.ok v => some ⟨v⟩
  | Except.error _ => none

def update (s : PyRollingQuantile) (x : ℚ) : PyRollingQuantile := ⟨s.stat.update x⟩

def get (s : PyRollingQuantile) : ℚ := s.stat.get

end PyRollingQuantile

/-- C6: RollingQuantile with `q = 0.5` and `window = 3`, fed the stream
1,2,3,4,5 one value per update, returns 2, 3 and 4 from `get()` after the
3rd, 4th and 5th updates: the exact median of the last 3 values under the
nearest-rank rule. -/
theorem rolling_median_stream_values :
    RollingQuantile.new (1/2) 3 = Except.ok (RollingQuantile.init (1/2) 3) ∧
    ((RollingQuantile.init (1/2) 3).runUpdates [1, 2, 3]).get = 2 ∧
    ((RollingQuantile.init (1/2) 3).runUpdates [1, 2, 3, 4]).get = 3 ∧
    ((RollingQuantile.init (1/2) 3).runUpdates [1, 2, 3, 4, 5]).get = 4 := by
  refine ⟨?_, ?_, ?_, ?_⟩ <;> with_unfolding_all rfl

theorem RollingQuantile.getCk_eq_some (s : RollingQuantile)
    (h : Inv s) (h0 : 0 < s.q) (h1 : s.q < 1) :
    s.getCk = some s.get := by
  unfold getCk get
  by_cases hb : s.buffer.length = 0
  · rw [if_pos hb, if_pos hb]
  · rw [if_neg hb, if_neg hb]
    have hlen : s.sorted.length = s.buffer.length := h.length_eq
    have hidx : rankIndex s.q s.buffer.length < s.sorted.length := by
      rw [hlen]
      exact rankIndex_lt s.q s.buffer.length h0 h1 (Nat.pos_of_ne_zero hb)
    rw [List.getElem?_eq_getElem hidx, List.getD_eq_getElem?_getD,
      List.getElem?_eq_getElem hidx]
    rfl

/-- C7: for every successfully constructed RollingQuantile and every finite
input sequence, `update` and `get` are total: the run is a total function
of the inputs and the checked `get`, whose rank lookup into the order
index is an explicit option, never fails and agrees with `get`.  All other
estimators of the modelled family contain no partial operation at all. -/
theorem rolling_update_get_total (q : ℚ) (w : ℕ) (s : RollingQuantile)
    (h : RollingQuantile.new q w = Except.ok s) (xs : List ℚ) :
    (s.runUpdates xs).getCk = some ((s.runUpdates xs).get) := by
  unfold RollingQuantile.new at h
  by_cases hc : 0 < q ∧ q < 1 ∧ 1 ≤ w
  · rw [if_pos hc] at h
    injection h with h2
    subst h2
    have hinv : RollingQuantile.Inv ((RollingQuantile.init q w).runUpdates xs) :=
      RollingQuantile.inv_runUpdates _ xs List.Perm.nil
    have hq : ((RollingQuantile.init q w).runUpdates xs).q = q :=
      RollingQuantile.q_runUpdates _ xs
    refine RollingQuantile.getCk_eq_some _ hinv ?_ ?_
    · rw [hq]; exact hc.1
    · rw [hq]; exact hc.2.1
  · rw [if_neg hc] at h
    cases h

theorem rolling_update_get_total_witness :
    ((RollingQuantile.init (1/2) 3).runUpdates [1, 2]).getCk =
      some (((RollingQuantile.init (1/2) 3).runUpdates [1, 2]).get) :=
  rolling_update_get_total (1/2) 3 (RollingQuantile.init (1/2) 3)
    (by with_unfolding_all rfl) [1, 2]

/-- Rank-lookup helpers shared by the buffered phases: `hGet l i` reads the
marker array entry `i` with default 0. -/
def hGet (l : List ℚ) (i : ℕ) : ℚ := l.getD i 0

/-- Modelled from the spec: the approximate streaming Quantile (§4.6), a
P²-style marker algorithm with five markers.  The crate implementation
`online_statistics::quantile::Quantile` is not under src/.  While fewer
than five observations have arrived they are buffered; the sorted buffer
then initializes the marker heights exactly, and each later update bumps
the marker position counters and adjusts each interior marker height that
drifted beyond one unit from its ideal position. -/
structure Quantile where
  q : ℚ
  buf : List ℚ
  heights : List ℚ
  pos : List ℚ
  desired : List ℚ
  ready : Bool
deriving Repr, DecidableEq

namespace Quantile

def init (q : ℚ) : Quantile := ⟨q, [], [], [], [], false⟩

/-- Construction fails with InvalidParameter unless `q ∈ (0,1)` (spec §4.6). -/
def new (q : ℚ) : Except InvalidParameter Quantile :=
  if 0 < q ∧ q < 1 then Except.ok (init q)
  else Except.error ⟨"q", "q must lie in the open interval (0,1)"⟩

/-- Modelled from the spec: the crate's default rank configuration used by
`Quantile::default()`, the median rank. -/
def dflt : Quantile := init (1/2)

/-- Per-update increments of the ideal marker positions for rank `q`. -/
def dn (q : ℚ) : List ℚ := [0, q/2, q, (1+q)/2, 1]

/-- Parabolic (piecewise-quadratic) interpolation of marker `i` moved by
`d ∈ {-1, 1}`. -/
def parab (h p : List ℚ) (i : ℕ) (d : ℚ) : ℚ :=
  hGet h i + d / (hGet p (i+1) - hGet p (i-1)) *
    ((hGet p i - hGet p (i-1) + d) * (hGet h (i+1) - hGet h i) / (hGet p (i+1) - hGet p i) +
     (hGet p (i+1) - hGet p i - d) * (hGet h i - hGet h (i-1)) / (hGet p i - hGet p (i-1)))

/-- Linear interpolation of marker `i` toward the neighbor in direction `d`. -/
def linear (h p : List ℚ) (i : ℕ) (d : ℚ) : ℚ :=
  let j := if 0 ≤ d then i + 1 else i - 1
  hGet h i + d * (hGet h j - hGet h i) / (hGet p j - hGet p i)

/-- Adjust interior marker `i`: when it drifted beyond one unit from its
ideal position and the neighbor gap allows a move, shift it one step,
taking the parabolic height if it stays strictly between the neighbor
heights and the linear one otherwise (spec §4.6). -/
def adjust (hp : List ℚ × List ℚ) (dd : List ℚ) (i : ℕ) : List ℚ × List ℚ :=
  let h := hp.1
  let p := hp.2
  let d := hGet dd i - hGet p i
  if (1 ≤ d ∧ 1 < hGet p (i+1) - hGet p i) ∨ (d ≤ -1 ∧ hGet p (i-1) - hGet p i < -1) then
    let sg : ℚ := if 0 ≤ d then 1 else -1
    let cand := parab h p i sg
    let moved := if hGet h (i-1) < cand ∧ cand < hGet h (i+1) then cand else linear h p i sg
    (h.set i moved, p.set i (hGet p i + sg))
  else (h, p)

/-- Buffer the first five observations and initialize the markers from their
sorted order; afterwards clamp the extreme markers, count the cell the
observation falls into, advance the ideal positions and adjust the three
interior markers (spec §4.6). -/
def update (s : Quantile) (x : ℚ) : Quantile :=
  if s.ready then
    let h0 := s.heights
    let hk : List ℚ × ℕ :=
      if x < hGet h0 0 then (h0.set 0 x, 0)
      else if hGet h0 4 ≤ x then (h0.set 4 x, 3)
      else if x < hGet h0 1 then (h0, 0)
      else if x < hGet h0 2 then (h0, 1)
      else if x < hGet h0 3 then (h0, 2)
      else (h0, 3)
    let p1 := (List.range 5).map fun i => hGet s.pos i + if hk.2 < i then 1 else 0
    let dd := (List.range 5).map fun i => hGet s.desired i + hGet (dn s.q) i
    let a1 := adjust (hk.1, p1) dd 1
    let a2 := adjust a1 dd 2
    let a3 := adjust a2 dd 3
    { s with heights := a3.1, pos := a3.2, desired := dd }
  else
    let b := s.buf ++ [x]
    if b.length < 5 then { s with buf := b }
    else
      let hs := List.insertionSort (· ≤ ·) b
      let ds := [1, 1 + 2 * s.q, 1 + 4 * s.q, 3 + 2 * s.q, 5]
      { s with buf := [], heights := hs, pos := [1, 2, 3, 4, 5], desired := ds, ready := true }

/-- Height of the marker tracking rank `q` (the middle marker); during the
initialization phase, the nearest-rank order statistic of the buffered
observations, with sentinel 0 before any observation. -/
def get (s : Quantile) : ℚ :=
  if s.ready then hGet s.heights 2
  else if s.buf.length = 0 then 0
  else (List.insertionSort (· ≤ ·) s.buf).getD
    (RollingQuantile.rankIndex s.q s.buf.length) 0

def runUpdates (s : Quantile) (xs : List ℚ) : Quantile := xs.foldl update s

end Quantile

/-- Binding wrapper `PyQuantile` from src/rust_src/lib.rs: with `Some(q)` the
crate construction result is unwrapped via `expect`, so an invalid rank
aborts instead of reaching the caller (`none` marks that abort); with
`None` the crate default is used and construction always succeeds. -/
structure PyQuantile where
  quantile : Quantile

namespace PyQuantile

def new (q : Option ℚ) : Option PyQuantile :=
  match q with
  | some qv =>
    match Quantile.new qv with
    | Except.ok v => some ⟨v⟩
    | Except.error _ => none
  | none => some ⟨Quantile.dflt⟩

def update (s : PyQuantile) (x : ℚ) : PyQuantile := ⟨s.quantile.update x⟩

def get (s : PyQuantile) : ℚ := s.quantile.get

end PyQuantile

/-- Modelled from the spec: InterquartileRange (§4.8).  The crate
implementation `online_statistics::iqr::IQR` is not under src/.  Owns two
Quantile instances at ranks `q_inf` and `q_sup`; `update` forwards to
both, `get` subtracts the lower estimate from the upper. -/
structure IQR where
  lower : Quantile
  upper : Quantile
deriving Repr, DecidableEq

namespace IQR

/-- Construction fails with InvalidParameter if either rank is outside
`(0,1)` or `q_inf ≥ q_sup` (spec §4.8). -/
def new (q_inf q_sup : ℚ) : Except InvalidParameter IQR :=
  if 0 < q_inf ∧ q_inf < 1 ∧ 0 < q_sup ∧ q_sup < 1 ∧ q_inf < q_sup then
    Except.ok ⟨Quantile.init q_inf, Quantile.init q_sup⟩
  else Except.error ⟨"q_inf, q_sup", "ranks must lie in (0,1) with q_inf below q_sup"⟩

def update (s : IQR) (x : ℚ) : IQR := ⟨s.lower.update x, s.upper.update x⟩

def get (s : IQR) : ℚ := s.upper.get - s.lower.get

def runUpdates (s : IQR) (xs : List ℚ) : IQR := xs.foldl update s

theorem runUpdates_components (s : IQR) (xs : List ℚ) :
    (s.runUpdates xs).lower = s.lower.runUpdates xs ∧
    (s.runUpdates xs).upper = s.upper.runUpdates xs := by
  induction xs generalizing s with
  | nil => exact ⟨rfl, rfl⟩
  | cons y ys ih => exact ih (s.update y)

end IQR

/-- Binding wrapper `PyIQR` from src/rust_src/lib.rs: the constructor calls
`IQR::new(q_inf, q_sup).expect("TODO")`, so an invalid rank pair aborts
instead of reaching the caller (`none` marks that abort). -/
structure PyIQR where
  iqr : IQR

namespace PyIQR

def new (q_inf q_sup : ℚ) : Option PyIQR :=
  match IQR.new q_inf q_sup with
  | Except.ok v => some ⟨v⟩
  | Except.error _ => none

def update (s : PyIQR) (x : ℚ) : PyIQR := ⟨s.iqr.update x⟩

def get (s : PyIQR) : ℚ := s.iqr.get

end PyIQR

/-- C1: contrary to the claim, invalid construction parameters do not reach
the caller as a recoverable InvalidParameter: the binding constructors in
src unwrap the crate result with `expect`/`unwrap`, so at each invalid
parameter below the crate reports a recoverable InvalidParameter, yet the
binding construction aborts (modelled as `none`). -/
theorem construction_aborts_on_invalid :
    PyQuantile.new (some (3/2)) = none ∧
    Quantile.new (3/2) = Except.error ⟨"q", "q must lie in the open interval (0,1)"⟩ ∧
    PyIQR.new (4/5) (1/5) = none ∧
    IQR.new (4/5) (1/5) =
      Except.error ⟨"q_inf, q_sup", "ranks must lie in (0,1) with q_inf below q_sup"⟩ ∧
    PyRollingQuantile.new (1/2) 0 = none ∧
    RollingQuantile.new (1/2) 0 =
      Except.error ⟨"q, window_size", "q must lie in (0,1) and window_size must be at least 1"⟩ := by
  refine ⟨?_, ?_, ?_, ?_, ?_, ?_⟩ <;> with_unfolding_all rfl

/-- C8: for every successfully constructed IQR and every finite input
sequence, each update is forwarded to both owned Quantile instances — the
components after the run equal independently run Quantile estimators at
ranks `q_inf` and `q_sup` — and `get()` returns exactly the upper quantile
estimate minus the lower one. -/
theorem iqr_forwards_and_subtracts (q_inf q_sup : ℚ) (r : IQR)
    (h : IQR.new q_inf q_sup = Except.ok r) (xs : List ℚ) :
    (r.runUpdates xs).lower = (Quantile.init q_inf).runUpdates xs ∧
    (r.runUpdates xs).upper = (Quantile.init q_sup).runUpdates xs ∧
    (r.runUpdates xs).get =
      ((Quantile.init q_sup).runUpdates xs).get -
        ((Quantile.init q_inf).runUpdates xs).get := by
  unfold IQR.new at h
  by_cases hc : 0 < q_inf ∧ q_inf < 1 ∧ 0 < q_sup ∧ q_sup < 1 ∧ q_inf < q_sup
  · rw [if_pos hc] at h
    injection h with h2
    subst h2
    obtain ⟨hl, hu⟩ := IQR.runUpdates_components ⟨Quantile.init q_inf, Quantile.init q_sup⟩ xs
    refine ⟨hl, hu, ?_⟩
    unfold IQR.get
    rw [hl, hu]
  · rw [if_neg hc] at h
    cases h

theorem iqr_forwards_and_subtracts_witness :
    ((⟨Quantile.init (1/4), Quantile.init (3/4)⟩ : IQR).runUpdates [1, 2]).lower =
      (Quantile.init (1/4)).runUpdates [1, 2] ∧
    ((⟨Quantile.init (1/4), Quantile.init (3/4)⟩ : IQR).runUpdates [1, 2]).upper =
      (Quantile.init (3/4)).runUpdates [1, 2] ∧
    ((⟨Quantile.init (1/4), Quantile.init (3/4)⟩ : IQR).runUpdates [1, 2]).get =
      ((Quantile.init (3/4)).runUpdates [1, 2]).get -
        ((Quantile.init (1/4)).runUpdates [1, 2]).get :=
  iqr_forwards_and_subtracts (1/4) (3/4) ⟨Quantile.init (1/4), Quantile.init (3/4)⟩
    (by with_unfolding_all rfl) [1, 2]

/-- C9: constructing a Quantile with the rank argument omitted always
succeeds and yields the default rank configuration; a construction abort
can only arise when a rank is explicitly supplied, and only an invalid
one. -/
theorem quantile_default_construction_succeeds :
    PyQuantile.new none = some ⟨Quantile.dflt⟩ ∧
    ∀ o : Option ℚ, PyQuantile.new o = none → ∃ qv, o = some qv ∧ ¬(0 < qv ∧ qv < 1) := by
  refine ⟨rfl, ?_⟩
  intro o ho
  match o with
  | none => exact absurd ho (by simp [PyQuantile.new])
  | some qv =>
    refine ⟨qv, rfl, ?_⟩
    intro hv
    simp only [PyQuantile.new, Quantile.new] at ho
    rw [if_pos hv] at ho
    exact absurd ho (by simp)

theorem quantile_default_construction_succeeds_witness :
    ∃ qv : ℚ, (some (2 : ℚ) : Option ℚ) = some qv ∧ ¬(0 < qv ∧ qv < 1) :=
  quantile_default_construction_succeeds.2 (some 2) (by with_unfolding_all rfl)

/-- Modelled from the spec: Skewness (§4.4).  The crate implementation
`online_statistics::skew::Skew` is not under src/.  State: running count,
running mean and central-moment accumulators `m2`, `m3`, updated in O(1)
by the online single-pass moment rule; configuration `bias`.  The final
`get` ratio `m3 / m2^1.5` involves a square root, outside exact rational
arithmetic, so only the accumulator state and its update are modelled. -/
structure Skew where
  bias : Bool
  n : ℕ
  mean : ℚ
  m2 : ℚ
  m3 : ℚ
deriving Repr, DecidableEq

namespace Skew

def new (bias : Bool) : Skew := ⟨bias, 0, 0, 0, 0⟩

/-- Online single-pass update of the 2nd and 3rd central-moment sums. -/
def update (s : Skew) (x : ℚ) : Skew :=
  let n1 : ℚ := (s.n : ℚ) + 1
  let delta := x - s.mean
  let dlt := delta / n1
  let t1 := delta * dlt * (s.n : ℚ)
  ⟨s.bias, s.n + 1, s.mean + dlt, s.m2 + t1,
    s.m3 + t1 * dlt * (n1 - 2) - 3 * dlt * s.m2⟩

def runUpdates (s : Skew) (xs : List ℚ) : Skew := xs.foldl update s

end Skew

/-- Modelled from the spec: Kurtosis (§4.5), the same accumulator strategy
as Skewness carrying the moments up to the 4th (the single-pass update of
the 4th central-moment sum also consumes the 3rd). -/
structure Kurtosis where
  bias : Bool
  n : ℕ
  mean : ℚ
  m2 : ℚ
  m3 : ℚ
  m4 : ℚ
deriving Repr, DecidableEq

namespace Kurtosis

def new (bias : Bool) : Kurtosis := ⟨bias, 0, 0, 0, 0, 0⟩

/-- Online single-pass update of the central-moment sums up to order 4. -/
def update (s : Kurtosis) (x : ℚ) : Kurtosis :=
  let n1 : ℚ := (s.n : ℚ) + 1
  let delta := x - s.mean
  let dlt := delta / n1
  let t1 := delta * dlt * (s.n : ℚ)
  ⟨s.bias, s.n + 1, s.mean + dlt, s.m2 + t1,
    s.m3 + t1 * dlt * (n1 - 2) - 3 * dlt * s.m2,
    s.m4 + t1 * dlt * dlt * (n1 * n1 - 3 * n1 + 3) + 6 * dlt * dlt * s.m2 - 4 * dlt * s.m3⟩

/-- Population excess kurtosis `m4 / m2^2 - 3` when `bias` is set, the
standard sample bias correction (valid from `n ≥ 4`) otherwise; the
sentinel 0 below the minimum sample size (spec §4.5). -/
def get (s : Kurtosis) : ℚ :=
  let n : ℚ := (s.n : ℚ)
  if s.bias then
    if 2 ≤ s.n then n * s.m4 / (s.m2 * s.m2) - 3 else 0
  else
    if 4 ≤ s.n then
      let g2 := n * s.m4 / (s.m2 * s.m2) - 3
      ((n + 1) * g2 + 6) * (n - 1) / ((n - 2) * (n - 3))
    else 0

def runUpdates (s : Kurtosis) (xs : List ℚ) : Kurtosis := xs.foldl update s

end Kurtosis

/-- Binding wrapper `PySkew` from src/rust_src/lib.rs: owns a `Skew`; `new`
takes the bias flag and returns the wrapper directly, with no failure
path. -/
structure PySkew where
  skew : Skew

namespace PySkew

def new (bias : Bool) : PySkew := ⟨Skew.new bias⟩

def update (s : PySkew) (x : ℚ) : PySkew := ⟨s.skew.update x⟩

end PySkew

/-- Binding wrapper `PyKurtosis` from src/rust_src/lib.rs: owns a
`Kurtosis`; `new` takes the bias flag and returns the wrapper directly,
with no failure path. -/
structure PyKurtosis where
  kurtosis : Kurtosis

namespace PyKurtosis

def new (bias : Bool) : PyKurtosis := ⟨Kurtosis.new bias⟩

def update (s : PyKurtosis) (x : ℚ) : PyKurtosis := ⟨s.kurtosis.update x⟩

def get (s : PyKurtosis) : ℚ := s.kurtosis.get

end PyKurtosis

/-- C10: construction of PeakToPeak, Skewness and Kurtosis is total: the
binding constructors have no failure path and, for the no-argument
PeakToPeak and for every bias flag of Skewness and Kurtosis, construction
succeeds and produces the freshly initialized estimator state. -/
theorem ptp_skew_kurtosis_construction_total :
    PyPeakToPeak.new.ptp = PeakToPeak.new ∧
    PeakToPeak.new = ⟨none, none⟩ ∧
    (∀ b : Bool, (PySkew.new b).skew = Skew.new b ∧ Skew.new b = ⟨b, 0, 0, 0, 0⟩) ∧
    (∀ b : Bool,
      (PyKurtosis.new b).kurtosis = Kurtosis.new b ∧ Kurtosis.new b = ⟨b, 0, 0, 0, 0, 0⟩) :=
  ⟨rfl, rfl, fun _ => ⟨rfl, rfl⟩, fun _ => ⟨rfl, rfl⟩⟩
